import Mathlib

/-!
Shallow embedding of src/src/parsers/whatsapp_parser.py (class WhatsAppParser
and the surrounding module) and proofs about the claims of the specification.

Modelling conventions:
* Python strings are Lean String / List Char; machine text is Unicode in both.
* The Python regular-expression engine (re.match, leftmost match, ordered
  alternation, greedy repetition with backtracking) is embedded as a small
  CPS backtracking matcher over a regex AST.  The regex character class d
  (digits) is modelled as the ASCII digits and s (whitespace) as the ASCII
  whitespace characters, which is what the chat-export inputs contain.
* datetime.strptime is embedded following CPython _strptime: the format is
  compiled to a regex (whitespace runs become one-or-more-whitespace, each
  directive becomes the alternation CPython uses), the regex must consume
  the whole input (unconverted data remains), and the extracted fields are
  validated exactly as the datetime constructor validates them.
* datetime.now() is modelled by threading an explicit parameter now through
  every function that can reach it.
* Functions that can raise in Python return Except or Option; a Python
  try/except is an explicit match on that result.
-/

/-! ## Basic Python string helpers -/

/-- Python str whitespace (the ASCII part): space, tab, newline, return,
vertical tab, form feed. -/
def pyWS (c : Char) : Bool :=
  c == ' ' || c == '\t' || c == '\n' || c == '\r' || c == '\x0b' || c == '\x0c'

/-- Python str.strip on a list of characters. -/
def stripList (l : List Char) : List Char :=
  ((l.dropWhile pyWS).reverse.dropWhile pyWS).reverse

/-- Python str.strip. -/
def pstrip (s : String) : String := String.mk (stripList s.data)

/-- Python str.split with a newline separator: split at every newline,
producing empty pieces for adjacent newlines (no collapsing). -/
def splitNL : List Char → List (List Char)
  | [] => [[]]
  | c :: rest =>
    if c == '\n' then [] :: splitNL rest
    else
      match splitNL rest with
      | h :: t => (c :: h) :: t
      | [] => [[c]]

/-- content.split with a newline, as a list of strings. -/
def pySplitLines (content : String) : List String :=
  (splitNL content.data).map String.mk

/-- Python substring containment on lists: needle occurs somewhere in hay.
The empty needle is contained in everything, as in Python. -/
def containsSub (needle : List Char) : List Char → Bool
  | [] => needle.isEmpty
  | c :: t => needle.isPrefixOf (c :: t) || containsSub needle t

/-- Python substring test: needle in hay. -/
def isSubstr (needle hay : String) : Bool := containsSub needle.data hay.data

/-- Number of maximal runs of non-whitespace characters: the length of
Python str.split() with no argument. -/
def wordCountAux : List Char → Bool → Nat
  | [], _ => 0
  | c :: rest, inWord =>
    if pyWS c then wordCountAux rest false
    else (if inWord then 0 else 1) + wordCountAux rest true

/-- len(s.split()) in Python. -/
def wordCount (l : List Char) : Nat := wordCountAux l false

/-- ASCII lower-casing of one character, as Python str.lower on A-Z. -/
def lowerChar (c : Char) : Char :=
  if 'A' ≤ c ∧ c ≤ 'Z' then Char.ofNat (c.toNat + 32) else c

/-- Read a digit string as a number, like int() on a digit-only string. -/
def digitsToNat (l : List Char) : Nat :=
  l.foldl (fun acc c => acc * 10 + (c.toNat - 48)) 0

/-! ## A backtracking regex engine (the fragment used by the parser)

The five WhatsAppParser patterns and the CPython strptime format regexes
only use: single characters, character classes, concatenation, ordered
alternation, greedy option, and greedy star/plus over a character class.
The matcher below implements exactly the Python semantics for this
fragment: alternatives are tried left to right, repetition is greedy with
backtracking, and the first overall success is returned. -/

inductive RE where
  | eps : RE
  | cls (p : Char → Bool) : RE
  | cat (a b : RE) : RE
  | alt (a b : RE) : RE
  | opt (a : RE) : RE
  | starCls (p : Char → Bool) : RE
  | group (i : Nat) (a : RE) : RE

/-- Greedy star over a character class, in continuation style: consume as
many class characters as possible, then hand shorter and shorter suffixes
to the continuation until one succeeds. -/
def starClsMatch {α : Type} (p : Char → Bool) : List Char → (List Char → Option α) → Option α
  | [], k => k []
  | c :: rest, k =>
    if p c then (starClsMatch p rest (fun s => k s)) <|> k (c :: rest)
    else k (c :: rest)

/-- The backtracking matcher.  It threads the capture list (group index
paired with the captured characters) and a continuation receiving the
remaining input and the captures along the successful path. -/
def matchRE {α : Type} :
    RE → List Char → List (Nat × List Char) →
    (List Char → List (Nat × List Char) → Option α) → Option α
  | .eps, s, caps, k => k s caps
  | .cls p, s, caps, k =>
    match s with
    | [] => none
    | c :: rest => if p c then k rest caps else none
  | .cat a b, s, caps, k => matchRE a s caps (fun s' caps' => matchRE b s' caps' k)
  | .alt a b, s, caps, k => matchRE a s caps k <|> matchRE b s caps k
  | .opt a, s, caps, k => matchRE a s caps k <|> k s caps
  | .starCls p, s, caps, k => starClsMatch p s (fun s' => k s' caps)
  | .group i a, s, caps, k =>
    matchRE a s caps (fun s' caps' => k s' ((i, s.take (s.length - s'.length)) :: caps'))

/-- Python re pattern.match(line): anchored at the start, the rest of the
line may remain unconsumed; returns the captures of the first match. -/
def reMatch (r : RE) (s : String) : Option (List (Nat × List Char)) :=
  matchRE r s.data [] (fun _ caps => some caps)

/-- Match returning also the unconsumed remainder (CPython strptime checks
match.end() against the input length after matching). -/
def reMatchRem (r : RE) (s : String) : Option (List Char × List (Nat × List Char)) :=
  matchRE r s.data [] (fun rem caps => some (rem, caps))

/-- Group lookup in the capture list (no group in the parser patterns is
matched twice, so the first record is the value). -/
def getCap (caps : List (Nat × List Char)) (i : Nat) : Option (List Char) :=
  (caps.find? (fun x => x.fst == i)).map (fun x => x.snd)

/-- A literal character as a regex. -/
def rchr (c : Char) : RE := .cls (fun x => x == c)

/-- A literal string as a regex (concatenation of its characters). -/
def rstr (s : String) : RE := s.data.foldr (fun c r => .cat (rchr c) r) .eps

/-- A literal string matched case-insensitively (CPython compiles the
strptime regex with the IGNORECASE flag). -/
def rstrCI (s : String) : RE :=
  s.data.foldr (fun c r => .cat (.cls (fun x => lowerChar x == lowerChar c)) r) .eps

/-- The regex class d restricted to ASCII digits. -/
def reDigit : RE := .cls Char.isDigit

/-- One whitespace character. -/
def reWS : RE := .cls pyWS

/-- The regex s-star. -/
def wsStar : RE := .starCls pyWS

/-- The regex s-plus. -/
def wsPlus : RE := .cat reWS (.starCls pyWS)

/-- A digit in a contiguous character range. -/
def digRange (lo hi : Char) : RE := .cls (fun c => lo ≤ c && c ≤ hi)

/-! ## Naive datetime (the fields the parser uses) -/

/-- A naive Python datetime value: no timezone, as in the parser. -/
structure DateTime where
  year : Nat
  month : Nat
  day : Nat
  hour : Nat
  minute : Nat
  second : Nat
deriving DecidableEq, Repr

/-- Gregorian leap-year test (as CPython datetime). -/
def isLeap (y : Nat) : Bool := (y % 4 == 0 && y % 100 != 0) || y % 400 == 0

/-- Days in a month of a year (as CPython datetime). -/
def daysInMonth (y m : Nat) : Nat :=
  if m == 2 then (if isLeap y then 29 else 28)
  else if m == 4 || m == 6 || m == 9 || m == 11 then 30
  else 31

/-- Days in the months strictly before month m of year y. -/
def daysBeforeMonth (y m : Nat) : Nat :=
  ((List.range' 1 (m - 1)).map (daysInMonth y)).sum

/-- Days in the years strictly before year y (proleptic Gregorian). -/
def daysBeforeYear (y : Nat) : Nat :=
  (y - 1) * 365 + (y - 1) / 4 - (y - 1) / 100 + (y - 1) / 400

/-- Proleptic Gregorian ordinal of the date, day 1 being 0001-01-01
(CPython date.toordinal). -/
def DateTime.toOrdinal (dt : DateTime) : Nat :=
  daysBeforeYear dt.year + daysBeforeMonth dt.year dt.month + dt.day

/-- The datetime as a second count from the day before 0001-01-01, so that
a difference of two values is the timedelta in whole seconds
(timedelta.total_seconds is exact here because all parsed datetimes have
whole-second precision). -/
def DateTime.totalSeconds (dt : DateTime) : Int :=
  (dt.toOrdinal : Int) * 86400 + dt.hour * 3600 + dt.minute * 60 + dt.second

/-- CPython datetime.weekday(): Monday is 0. -/
def DateTime.weekday (dt : DateTime) : Nat := (dt.toOrdinal + 6) % 7

/-! ## datetime.strptime (CPython _strptime for the directives the parser
uses: y Y m d H I M S p, literal slashes and colons, and spaces) -/

/-- Capture indices used by the strptime regex, one per directive. -/
def gy : Nat := 0
def gY : Nat := 1
def gm : Nat := 2
def gd : Nat := 3
def gH : Nat := 4
def gI : Nat := 5
def gM : Nat := 6
def gS : Nat := 7
def gp : Nat := 8

/-- The CPython TimeRE regex fragment for each directive, with the same
ordered alternation (longer alternatives first, as in the CPython source):
  y: two digits                      Y: four digits
  m: 1[0-2] | 0[1-9] | [1-9]         d: 3[01] | [12]d | 0[1-9] | [1-9]
  H: 2[0-3] | [0-1]d | d             I: 1[0-2] | 0[1-9] | [1-9]
  M: [0-5]d | d                      S: 6[0-1] | [0-5]d | d
  p: AM | PM, case-insensitively. -/
def directiveRE (c : Char) : RE :=
  if c == 'y' then .group gy (.cat reDigit reDigit)
  else if c == 'Y' then .group gY (.cat reDigit (.cat reDigit (.cat reDigit reDigit)))
  else if c == 'm' then
    .group gm (.alt (.cat (rchr '1') (digRange '0' '2'))
      (.alt (.cat (rchr '0') (digRange '1' '9')) (digRange '1' '9')))
  else if c == 'd' then
    .group gd (.alt (.cat (rchr '3') (digRange '0' '1'))
      (.alt (.cat (digRange '1' '2') reDigit)
        (.alt (.cat (rchr '0') (digRange '1' '9')) (digRange '1' '9'))))
  else if c == 'H' then
    .group gH (.alt (.cat (rchr '2') (digRange '0' '3'))
      (.alt (.cat (digRange '0' '1') reDigit) reDigit))
  else if c == 'I' then
    .group gI (.alt (.cat (rchr '1') (digRange '0' '2'))
      (.alt (.cat (rchr '0') (digRange '1' '9')) (digRange '1' '9')))
  else if c == 'M' then
    .group gM (.alt (.cat (digRange '0' '5') reDigit) reDigit)
  else if c == 'S' then
    .group gS (.alt (.cat (rchr '6') (digRange '0' '1'))
      (.alt (.cat (digRange '0' '5') reDigit) reDigit))
  else if c == 'p' then .group gp (.alt (rstrCI "AM") (rstrCI "PM"))
  else .cls (fun _ => false)

/-- Compile a strptime format string to a regex, as CPython TimeRE.pattern:
a run of whitespace becomes one-or-more-whitespace, a percent directive
becomes its fragment, any other character is a literal.  The fuel argument
(initially the format length) only serves structural recursion: every step
consumes at least one character, so starting from the length it never runs
out and the zero case is unreachable. -/
def fmtToREAux : Nat → List Char → RE
  | _, [] => .eps
  | 0, _ :: _ => .cls (fun _ => false)
  | fuel + 1, '%' :: c :: rest => .cat (directiveRE c) (fmtToREAux fuel rest)
  | _ + 1, '%' :: [] => .cls (fun _ => false)
  | fuel + 1, c :: rest =>
    if pyWS c then .cat wsPlus (fmtToREAux fuel (rest.dropWhile pyWS))
    else .cat (rchr c) (fmtToREAux fuel rest)

/-- The compiled regex of a format string. -/
def fmtToRE (fmt : List Char) : RE := fmtToREAux fmt.length fmt

/-- datetime.strptime(data_string, fmt): match the compiled format regex at
the start, fail if unconverted data remains, read the captured fields with
the CPython default values and conversions (two-digit years at most 68 are
2000-based, otherwise 1900-based; the twelve-hour value is folded by the
meridiem, which is lower-cased before comparison), and finally validate the
fields exactly as the datetime constructor does (raising means none). -/
def strptime (data fmt : String) : Option DateTime :=
  match reMatchRem (fmtToRE fmt.data) data with
  | none => none
  | some (rem, caps) =>
    if rem.isEmpty then
      let year : Nat :=
        match getCap caps gY with
        | some ds => digitsToNat ds
        | none =>
          match getCap caps gy with
          | some ds =>
            let v := digitsToNat ds
            if v ≤ 68 then 2000 + v else 1900 + v
          | none => 1900
      let month : Nat := ((getCap caps gm).map digitsToNat).getD 1
      let day : Nat := ((getCap caps gd).map digitsToNat).getD 1
      let ampm : Option (List Char) := (getCap caps gp).map (List.map lowerChar)
      let hour : Nat :=
        match getCap caps gH with
        | some ds => digitsToNat ds
        | none =>
          match getCap caps gI with
          | some ds =>
            let h12 := digitsToNat ds
            if ampm = some ['p', 'm'] then (if h12 == 12 then 12 else h12 + 12)
            else (if h12 == 12 then 0 else h12)
          | none => 0
      let minute : Nat := ((getCap caps gM).map digitsToNat).getD 0
      let second : Nat := ((getCap caps gS).map digitsToNat).getD 0
      if 1 ≤ year ∧ year ≤ 9999 ∧ 1 ≤ month ∧ month ≤ 12 ∧ 1 ≤ day ∧
          day ≤ daysInMonth year month ∧ hour ≤ 23 ∧ minute ≤ 59 ∧ second ≤ 59 then
        some ⟨year, month, day, hour, minute, second⟩
      else none
    else none

/-! ## WhatsAppParser._parse_timestamp -/

/-- The date format list of _parse_timestamp, in source order. -/
def date_formats : List String :=
  ["%m/%d/%y", "%m/%d/%Y", "%d/%m/%y", "%d/%m/%Y", "%Y/%m/%d"]

/-- The time format list of _parse_timestamp, in source order. -/
def time_formats : List String :=
  ["%H:%M:%S", "%H:%M", "%I:%M:%S %p", "%I:%M %p"]

/-- WhatsAppParser._parse_timestamp: try every date format with every time
format (date-major order) on the concatenation of the two tokens; if none
parses, try the extra simple format, and if that fails too return the
current wall-clock time (the now parameter) after logging a warning. -/
def parse_timestamp (now : DateTime) (date_str time_str : String) : DateTime :=
  match date_formats.findSome? (fun date_fmt =>
      time_formats.findSome? (fun time_fmt =>
        strptime (date_str ++ " " ++ time_str) (date_fmt ++ " " ++ time_fmt))) with
  | some dt => dt
  | none =>
    match strptime (date_str ++ " " ++ time_str) "%m/%d/%y %H:%M" with
    | some dt => dt
    | none => now

/-! ## WhatsAppParser.__init__: the dialect patterns

The five compiled patterns, transcribed regex node by regex node.  The
us_format and eu_format patterns share everything except the optional
meridiem part, so the shared pieces are named definitions. -/

/-- Anything but a newline: the regex dot without DOTALL. -/
def notNL (c : Char) : Bool := !(c == '\n')

/-- The class excluding a colon. -/
def notColon (c : Char) : Bool := !(c == ':')

/-- One or two digits. -/
def d12 : RE := .cat reDigit (.opt reDigit)

/-- Two to four digits, greedy (four, then three, then two). -/
def d24 : RE := .cat reDigit (.cat reDigit (.opt (.cat reDigit (.opt reDigit))))

/-- The date fragment: one-or-two digits, slash, one-or-two digits, slash,
two-to-four digits. -/
def dateRE : RE := .cat d12 (.cat (rchr '/') (.cat d12 (.cat (rchr '/') d24)))

/-- The time fragment with optional seconds: H:MM with an optional :SS. -/
def timeHM : RE :=
  .cat d12 (.cat (rchr ':')
    (.cat reDigit (.cat reDigit (.opt (.cat (rchr ':') (.cat reDigit reDigit))))))

/-- The time fragment with mandatory seconds: H:MM:SS. -/
def timeHMS : RE :=
  .cat d12 (.cat (rchr ':') (.cat reDigit (.cat reDigit (.cat (rchr ':') (.cat reDigit reDigit)))))

/-- AM or PM. -/
def ampmRE : RE := .alt (rstr "AM") (rstr "PM")

/-- The sender fragment: one or more non-colon characters, greedy. -/
def senderRE : RE := .cat (.cls notColon) (.starCls notColon)

/-- The rest-of-line fragment: dot star. -/
def dotStar : RE := .starCls notNL

/-- Shared head of the unbracketed patterns: captured date, optional comma,
whitespace, captured time. -/
def headUnbracketed : RE :=
  .cat (.group 1 dateRE) (.cat (.opt (rchr ',')) (.cat wsPlus (.group 2 timeHM)))

/-- Shared tail of us_format and eu_format: dash, whitespace star, captured
sender, colon, whitespace star, captured message. -/
def tailUnbracketed : RE :=
  .cat (rchr '-') (.cat wsStar
    (.cat (.group 3 senderRE) (.cat (rchr ':') (.cat wsStar (.group 4 dotStar)))))

/-- Pattern 2 of the source: date, optional comma, whitespace, time,
whitespace star, optional meridiem, whitespace star, dash tail. -/
def us_format : RE :=
  .cat headUnbracketed (.cat wsStar (.cat (.opt ampmRE) (.cat wsStar tailUnbracketed)))

/-- Pattern 3 of the source: identical to us_format except that the
optional meridiem part is absent. -/
def eu_format : RE := .cat headUnbracketed (.cat wsStar tailUnbracketed)

/-- The system-notice keyword alternation inside the system pattern. -/
def sysKw : RE :=
  .alt (rstr "joined") (.alt (rstr "left")
    (.alt (rstr "added") (.alt (rstr "removed") (rstr "changed"))))

/-- The captured body of the system pattern: dot star, keyword, dot star. -/
def sysBody : RE := .cat dotStar (.cat sysKw dotStar)

/-- Pattern 5 of the source: same prefix as us_format, no sender segment,
body must contain one of the five service keywords. -/
def system_message : RE :=
  .cat headUnbracketed (.cat wsStar (.cat (.opt ampmRE)
    (.cat wsStar (.cat (rchr '-') (.cat wsStar (.group 3 sysBody))))))

/-- Pattern 1 of the source: bracketed date and seconds time with an
explicit captured meridiem. -/
def bracketed_ampm_format : RE :=
  .cat (rchr '[') (.cat (.group 1 dateRE) (.cat (.opt (rchr ',')) (.cat wsPlus
    (.cat (.group 2 timeHMS) (.cat wsPlus (.cat (.group 3 ampmRE) (.cat (rchr ']')
      (.cat wsStar (.cat (.group 4 senderRE)
        (.cat (rchr ':') (.cat wsStar (.group 5 dotStar))))))))))))

/-- Pattern 4 of the source: bracketed date and seconds time, no meridiem. -/
def bracketed_format : RE :=
  .cat (rchr '[') (.cat (.group 1 dateRE) (.cat (.opt (rchr ',')) (.cat wsPlus
    (.cat (.group 2 timeHMS) (.cat (rchr ']') (.cat wsStar (.cat (.group 3 senderRE)
      (.cat (rchr ':') (.cat wsStar (.group 4 dotStar))))))))))

/-- The ordered pattern dictionary of WhatsAppParser.__init__ (Python dict
iteration follows insertion order). -/
def patterns : List (String × RE) :=
  [("bracketed_ampm_format", bracketed_ampm_format),
   ("us_format", us_format),
   ("eu_format", eu_format),
   ("bracketed_format", bracketed_format),
   ("system_message", system_message)]

/-! ## WhatsAppParser._parse_message_line -/

/-- The system keyword list of _parse_message_line, in source order. -/
def system_keywords : List String :=
  ["Messages and calls are end-to-end encrypted",
   "created group",
   "added",
   "removed",
   "left",
   "joined",
   "changed the subject",
   "changed this group",
   "changed the group description",
   "security code changed",
   "You\x27re now an admin",
   "You deleted this message",
   "This message was deleted",
   "Missed voice call",
   "Missed video call"]

/-- A raw message record as built by _parse_message_line (the dict with
keys timestamp, sender, message, is_system). -/
structure RawMessage where
  timestamp : DateTime
  sender : String
  message : String
  is_system : Bool
deriving DecidableEq, Repr

/-- Capture i of a match as a string (every referenced group is always
present when these patterns match). -/
def grp (caps : List (Nat × List Char)) (i : Nat) : String :=
  String.mk ((getCap caps i).getD [])

/-- The body of the pattern loop of _parse_message_line for one named
pattern: on a match, build the raw record, detecting system content by a
keyword-in-body substring test and forcing the sender to System. -/
def classify (now : DateTime) (line : String) (pattern_name : String) (pattern : RE) :
    Option RawMessage :=
  match reMatch pattern line with
  | none => none
  | some caps =>
    if pattern_name == "system_message" then
      some { timestamp := parse_timestamp now (grp caps 1) (grp caps 2),
             sender := "System", message := grp caps 3, is_system := true }
    else if pattern_name == "bracketed_ampm_format" then
      let time_with_ampm := grp caps 2 ++ " " ++ grp caps 3
      let sender := pstrip (grp caps 4)
      let message := pstrip (grp caps 5)
      let is_system := system_keywords.any (fun kw => isSubstr kw message)
      some { timestamp := parse_timestamp now (grp caps 1) time_with_ampm,
             sender := if is_system then "System" else sender,
             message := message, is_system := is_system }
    else
      let sender := pstrip (grp caps 3)
      let message := pstrip (grp caps 4)
      let is_system := system_keywords.any (fun kw => isSubstr kw message)
      some { timestamp := parse_timestamp now (grp caps 1) (grp caps 2),
             sender := if is_system then "System" else sender,
             message := message, is_system := is_system }

/-- WhatsAppParser._parse_message_line: try each pattern in order, first
match wins, otherwise none (the line is a continuation). -/
def parse_message_line (now : DateTime) (line : String) : Option RawMessage :=
  patterns.findSome? (fun p => classify now line p.fst p.snd)

/-! ## WhatsAppParser._extract_messages (the message stream builder) -/

/-- The line loop of _extract_messages: one open current message, blank
lines skipped, a header match flushes the open message, anything else is
appended to the open message with a newline (and silently dropped when no
message is open). -/
def extract_loop (now : DateTime) :
    List String → Option RawMessage → List RawMessage → List RawMessage
  | [], current, acc =>
    match current with
    | some m => acc ++ [m]
    | none => acc
  | l :: rest, current, acc =>
    let line := pstrip l
    if line == "" then extract_loop now rest current acc
    else
      match parse_message_line now line with
      | some message_data =>
        match current with
        | some m => extract_loop now rest (some message_data) (acc ++ [m])
        | none => extract_loop now rest (some message_data) acc
      | none =>
        match current with
        | some m =>
          extract_loop now rest (some { m with message := m.message ++ "\n" ++ line }) acc
        | none => extract_loop now rest none acc

/-- The raw message stream of a file content: split on newlines and run the
line loop from the empty state. -/
def extract_raw (now : DateTime) (content : String) : List RawMessage :=
  extract_loop now (pySplitLines content) none []

/-! ## WhatsAppParser._process_messages (the message enricher) -/

/-- The media placeholder list of WhatsAppParser.__init__, in source
order. -/
def media_patterns : List String :=
  ["<Media omitted>",
   "image omitted",
   "video omitted",
   "audio omitted",
   "document omitted",
   "sticker omitted",
   "GIF omitted"]

/-- An enriched message as produced by _process_messages: the raw fields
plus the derived metadata added in the loop.  The emoji membership test of
_extract_emojis queries the external emoji.EMOJI_DATA table, modelled as
the isEmoji parameter.  Python computes response_time_seconds as a float
through timedelta.total_seconds; every parsed datetime has whole-second
precision, so the value is an exact integer, modelled as Int. -/
structure ProcMessage where
  timestamp : DateTime
  sender : String
  message : String
  is_system : Bool
  message_id : Nat
  is_media : Bool
  emojis : List Char
  emoji_count : Nat
  message_length : Nat
  word_count : Nat
  hour : Nat
  day_of_week : Nat
  date : Nat × Nat × Nat
  response_time_seconds : Option Int
deriving DecidableEq, Repr

/-- WhatsAppParser._extract_emojis: the characters of the text that are in
the emoji table. -/
def extract_emojis (isEmoji : Char → Bool) (text : String) : List Char :=
  text.data.filter isEmoji

/-- The body of the enumerate loop of _process_messages for index i: attach
id, media flag, emojis, lengths, time-of-day fields and the raw delta to
the message at index i-1 of the input list (None for the first message). -/
def enrich (isEmoji : Char → Bool) (msgs : List RawMessage) (i : Nat) (msg : RawMessage) :
    ProcMessage :=
  { timestamp := msg.timestamp
    sender := msg.sender
    message := msg.message
    is_system := msg.is_system
    message_id := i
    is_media := media_patterns.any (fun pattern => isSubstr pattern msg.message)
    emojis := extract_emojis isEmoji msg.message
    emoji_count := (extract_emojis isEmoji msg.message).length
    message_length := msg.message.length
    word_count := wordCount msg.message.data
    hour := msg.timestamp.hour
    day_of_week := msg.timestamp.weekday
    date := (msg.timestamp.year, msg.timestamp.month, msg.timestamp.day)
    response_time_seconds :=
      if 0 < i then
        match msgs.get? (i - 1) with
        | some prev => some (msg.timestamp.totalSeconds - prev.timestamp.totalSeconds)
        | none => none
      else none }

/-- WhatsAppParser._process_messages: enumerate and enrich. -/
def process_messages (isEmoji : Char → Bool) (msgs : List RawMessage) : List ProcMessage :=
  msgs.enum.map (fun p => enrich isEmoji msgs p.fst p.snd)

/-- WhatsAppParser._extract_messages: split, run the line loop, enrich. -/
def extract_messages (now : DateTime) (isEmoji : Char → Bool) (content : String) :
    List ProcMessage :=
  process_messages isEmoji (extract_raw now content)

/-! ## WhatsAppParser.parse_file (the chat parser facade) -/

/-- The encoding priority list of _read_file_with_encoding. -/
def encodings : List String := ["utf-8", "utf-8-sig", "latin-1", "cp1252"]

/-- WhatsAppParser._read_file_with_encoding.  The decode parameter stands
for the external codec: open plus read of the file under one encoding,
where none is a UnicodeDecodeError.  The first encoding that decodes wins;
if none does, a ValueError is raised, modelled as the error branch. -/
def read_file_with_encoding (file_path : String) (decode : String → Option String) :
    Except String String :=
  match encodings.findSome? decode with
  | some content => .ok content
  | none => .error ("Could not decode file " ++ file_path ++ " with any encoding")

/-- WhatsAppParser._extract_participants: the sorted distinct non-system
senders. -/
def extract_participants (messages : List ProcMessage) : List String :=
  (((messages.filter (fun m => !m.is_system)).map (fun m => m.sender)).dedup).mergeSort
    (fun a b => decide (a ≤ b))

/-- The self-identifying tokens of _extract_chat_name. -/
def you_keywords : List String := ["You", "you", "+1", "Me"]

/-- WhatsAppParser._extract_chat_name.  The filename parameter is
Path(file_path).stem, supplied by the caller (a filesystem-path operation).
Python builds the participant set with arbitrary set iteration order and
takes the first element surviving the you-keyword filter; the model uses
the sorted order, which fixes one of the admissible orders. -/
def extract_chat_name (filename : String) (messages : List ProcMessage) : String :=
  if isSubstr "WhatsApp Chat with" filename then
    pstrip (filename.replace "WhatsApp Chat with " "")
  else
    let participants := extract_participants messages
    if 2 < participants.length then
      "Group Chat (" ++ toString participants.length ++ " participants)"
    else if participants.length == 2 then
      let other_person := participants.filter
        (fun p => !(you_keywords.any (fun keyword => isSubstr keyword p)))
      match other_person with
      | o :: _ => o
      | [] => filename
    else filename

/-- WhatsAppParser._get_date_range: earliest and latest timestamp, none on
an empty list (Python returns an empty dict there; min and max return the
first extremal element, which for datetime values is unique as a value). -/
def get_date_range (messages : List ProcMessage) : Option (DateTime × DateTime) :=
  match messages.map (fun m => m.timestamp) with
  | [] => none
  | t :: ts =>
    some (ts.foldl (fun a b => if b.totalSeconds < a.totalSeconds then b else a) t,
          ts.foldl (fun a b => if a.totalSeconds < b.totalSeconds then b else a) t)

/-- The per-file result dict of parse_file on the successful path. -/
structure ChatData where
  chat_name : String
  file_path : String
  participants : List String
  messages : List ProcMessage
  message_count : Nat
  date_range : Option (DateTime × DateTime)
deriving Repr

/-- WhatsAppParser.parse_file.  The whole body runs inside a try/except
that catches every exception, logs it and returns the empty dict, so the
function never lets an exception escape: the Except layer of the return
type is the exception channel visible to the caller, and it is always ok.
The empty dict returns (no messages, or an internal error) are the none
value.  The fileStem parameter is Path(file_path).stem. -/
def parse_file (now : DateTime) (isEmoji : Char → Bool) (fileStem file_path : String)
    (decode : String → Option String) : Except String (Option ChatData) :=
  match read_file_with_encoding file_path decode with
  | .error _ => .ok none
  | .ok content =>
    let messages := extract_messages now isEmoji content
    if messages.isEmpty then .ok none
    else
      .ok (some
        { chat_name := extract_chat_name fileStem messages
          file_path := file_path
          participants := extract_participants messages
          messages := messages
          message_count := messages.length
          date_range := get_date_range messages })

/-! ## Definitions used by the claim statements -/


/-- The pattern dictionary with the eu_format entry removed: the refinement
the specification describes as extensionally equivalent. -/
def patterns_noEU : List (String × RE) :=
  [("bracketed_ampm_format", bracketed_ampm_format),
   ("us_format", us_format),
   ("bracketed_format", bracketed_format),
   ("system_message", system_message)]

/-- The line classifier run over the pattern list without eu_format. -/
def parse_message_line_noEU (now : DateTime) (line : String) : Option RawMessage :=
  patterns_noEU.findSome? (fun p => classify now line p.fst p.snd)

/-- The system coercion invariant on a raw record. -/
def SysInv (m : RawMessage) : Prop := m.is_system = true → m.sender = "System"

/-- The loop order of _parse_timestamp as a flat list: the full cross
product of date formats and time formats, date-major. -/
def timestamp_combos : List (String × String) :=
  date_formats.flatMap (fun df => time_formats.map (fun tf => (df, tf)))

/-- The four-line input of the concrete scenario of the specification
(section 8). -/
def c6Content : String :=
  "1/5/24, 10:00 - Alice: Hi there\n1/5/24, 10:01 - Bob: Hello!\nThis is a continuation\n1/5/24, 10:05 - Alice: Bob joined using an invite link"

/-- A fixed wall-clock value used as the now argument of concrete
instances. -/
def epoch : DateTime := ⟨1970, 1, 1, 0, 0, 0⟩

/-- The enriched message produced by parsing the one-line system-notice
sample (used by the C2 witness). -/
def procMsgW : ProcMessage :=
  { timestamp := ⟨2024, 1, 1, 1, 1, 0⟩, sender := "System", message := "x left",
    is_system := true, message_id := 0, is_media := false, emojis := [],
    emoji_count := 0, message_length := 6, word_count := 2, hour := 1,
    day_of_week := 0, date := (2024, 1, 1), response_time_seconds := none }

/-- A two-message sample content (used by the C8 witness). -/
def c8ContentW : String := "1/1/24, 1:01 - A: hi\n1/1/24, 1:02 - B: yo"

/-! ## Lemmas and claim theorems -/


theorem orElse_eq_or {α : Type} (x y : Option α) : (x <|> y) = x.or y := by
  cases x <;> rfl

theorem isSome_orElse {α : Type} (x y : Option α) :
    (x <|> y).isSome = (x.isSome || y.isSome) := by
  rw [orElse_eq_or]; exact Option.isSome_or

theorem starClsMatch_mono {α : Type} (p : Char → Bool) (s : List Char)
    (k k' : List Char → Option α)
    (hk : ∀ s', (k s').isSome → (k' s').isSome) :
    (starClsMatch p s k).isSome → (starClsMatch p s k').isSome := by
  induction s generalizing k k' with
  | nil => exact hk []
  | cons c rest ih =>
    simp only [starClsMatch]
    cases hpc : p c with
    | false => simp only [hpc, Bool.false_eq_true, if_false]; exact hk (c :: rest)
    | true =>
      simp only [hpc, if_true]
      simp only [isSome_orElse, Bool.or_eq_true]
      rintro (h | h)
      · exact Or.inl (ih _ _ hk h)
      · exact Or.inr (hk _ h)

theorem starClsMatch_skip {α : Type} (p : Char → Bool) (s : List Char)
    (k : List Char → Option α) (h : (k s).isSome) :
    (starClsMatch p s k).isSome := by
  cases s with
  | nil => exact h
  | cons c rest =>
    simp only [starClsMatch]
    cases hpc : p c with
    | false => simp only [hpc, Bool.false_eq_true, if_false]; exact h
    | true =>
      simp only [hpc, if_true, isSome_orElse, Bool.or_eq_true]
      exact Or.inr h

theorem matchRE_mono {α : Type} (r : RE) :
    ∀ (s : List Char) (caps : List (Nat × List Char))
      (k k' : List Char → List (Nat × List Char) → Option α),
      (∀ s' caps', (k s' caps').isSome → (k' s' caps').isSome) →
      (matchRE r s caps k).isSome → (matchRE r s caps k').isSome := by
  induction r with
  | eps => intro s caps k k' hk; exact hk s caps
  | cls p =>
    intro s caps k k' hk
    cases s with
    | nil => simp [matchRE]
    | cons c rest =>
      simp only [matchRE]
      cases hpc : p c with
      | false => simp only [hpc, Bool.false_eq_true, if_false]; exact fun h => h
      | true => simp only [hpc, if_true]; exact hk rest caps
  | cat a b iha ihb =>
    intro s caps k k' hk
    simp only [matchRE]
    exact iha _ _ _ _ (fun s' caps' => ihb _ _ _ _ hk)
  | alt a b iha ihb =>
    intro s caps k k' hk
    simp only [matchRE, isSome_orElse, Bool.or_eq_true]
    rintro (h | h)
    · exact Or.inl (iha _ _ _ _ hk h)
    · exact Or.inr (ihb _ _ _ _ hk h)
  | opt a iha =>
    intro s caps k k' hk
    simp only [matchRE, isSome_orElse, Bool.or_eq_true]
    rintro (h | h)
    · exact Or.inl (iha _ _ _ _ hk h)
    · exact Or.inr (hk _ _ h)
  | starCls p =>
    intro s caps k k' hk
    simp only [matchRE]
    exact starClsMatch_mono p s _ _ (fun s' => hk s' caps)
  | group i a iha =>
    intro s caps k k' hk
    simp only [matchRE]
    exact iha _ _ _ _ (fun s' caps' => hk _ _)

/-- Unfolding the matcher on a concatenation. -/
theorem matchRE_cat {α : Type} (a b : RE) (s : List Char) (caps : List (Nat × List Char))
    (k : List Char → List (Nat × List Char) → Option α) :
    matchRE (.cat a b) s caps k = matchRE a s caps (fun s' caps' => matchRE b s' caps' k) := rfl

/-- Unfolding the matcher on an option node. -/
theorem matchRE_opt {α : Type} (a : RE) (s : List Char) (caps : List (Nat × List Char))
    (k : List Char → List (Nat × List Char) → Option α) :
    matchRE (.opt a) s caps k = (matchRE a s caps k <|> k s caps) := rfl

/-- Unfolding the matcher on a class star. -/
theorem matchRE_starCls {α : Type} (p : Char → Bool) (s : List Char)
    (caps : List (Nat × List Char))
    (k : List Char → List (Nat × List Char) → Option α) :
    matchRE (.starCls p) s caps k = starClsMatch p s (fun s' => k s' caps) := rfl

/-- Any input accepted by the eu_format tail is accepted by the us_format
tail (take the empty meridiem and an empty second whitespace run). -/
theorem euTail_sub_usTail {α : Type} (s : List Char) (caps : List (Nat × List Char))
    (k : List Char → List (Nat × List Char) → Option α) :
    (matchRE (.cat wsStar tailUnbracketed) s caps k).isSome →
    (matchRE (.cat wsStar (.cat (.opt ampmRE) (.cat wsStar tailUnbracketed))) s caps k).isSome := by
  rw [matchRE_cat, matchRE_cat, wsStar, matchRE_starCls, matchRE_starCls]
  refine starClsMatch_mono pyWS s _ _ ?_
  intro s2 h2
  rw [matchRE_cat, matchRE_opt, isSome_orElse, Bool.or_eq_true]
  refine Or.inr ?_
  rw [matchRE_cat, matchRE_starCls]
  exact starClsMatch_skip pyWS s2 _ h2

/-- Every line matched by eu_format is matched by us_format. -/
theorem eu_sub_us (line : String) :
    (reMatch eu_format line).isSome → (reMatch us_format line).isSome := by
  unfold reMatch eu_format us_format
  rw [matchRE_cat, matchRE_cat]
  refine matchRE_mono headUnbracketed _ _ _ _ ?_
  intro s' caps'
  exact euTail_sub_usTail s' caps' _

/-- Unfolding findSome? on a cons cell. -/
theorem findSome?_cons {α β : Type} (f : α → Option β) (a : α) (l : List α) :
    List.findSome? f (a :: l) =
      match f a with
      | some b => some b
      | none => List.findSome? f l := rfl

/-- The per-pattern classifier returns none exactly when the pattern does
not match (every match branch builds a record). -/
theorem classify_none_iff (now : DateTime) (line name : String) (pat : RE) :
    classify now line name pat = none ↔ reMatch pat line = none := by
  unfold classify
  cases h : reMatch pat line with
  | none => simp
  | some caps =>
    simp only []
    constructor
    · intro hc
      exfalso
      revert hc
      split
      · simp
      · split <;> simp
    · intro hc; cases hc

/-- Classifier equality with and without the eu pattern. -/
theorem parse_message_line_noEU_eq (now : DateTime) (line : String) :
    parse_message_line_noEU now line = parse_message_line now line := by
  unfold parse_message_line parse_message_line_noEU patterns patterns_noEU
  simp only [findSome?_cons]
  cases h1 : classify now line "bracketed_ampm_format" bracketed_ampm_format with
  | some m => rfl
  | none =>
    simp only []
    cases h2 : classify now line "us_format" us_format with
    | some m => rfl
    | none =>
      simp only []
      have hus : reMatch us_format line = none := (classify_none_iff now line _ _).mp h2
      have heu : reMatch eu_format line = none := by
        cases he : reMatch eu_format line with
        | none => rfl
        | some c =>
          have hs := eu_sub_us line (by rw [he]; rfl)
          rw [hus] at hs
          cases hs
      have h3 : classify now line "eu_format" eu_format = none :=
        (classify_none_iff now line _ _).mpr heu
      rw [h3]

/-- Every record built by the per-pattern classifier satisfies the system
coercion invariant: the system branch hard-codes the System sender, the
other branches force it whenever the keyword test sets the flag. -/
theorem classify_sysinv (now : DateTime) (line name : String) (pat : RE)
    (m : RawMessage) (h : classify now line name pat = some m) : SysInv m := by
  unfold classify at h
  cases hm : reMatch pat line with
  | none => rw [hm] at h; cases h
  | some caps =>
    rw [hm] at h
    simp only [] at h
    by_cases h1 : (name == "system_message") = true
    · rw [if_pos h1] at h
      simp only [Option.some.injEq] at h
      subst h
      exact fun _ => rfl
    · rw [if_neg h1] at h
      by_cases h2 : (name == "bracketed_ampm_format") = true
      · rw [if_pos h2] at h
        simp only [Option.some.injEq] at h
        subst h
        exact fun hs => if_pos hs
      · rw [if_neg h2] at h
        simp only [Option.some.injEq] at h
        subst h
        exact fun hs => if_pos hs

/-- Every record returned by the line classifier satisfies the system
coercion invariant. -/
theorem parse_line_sysinv (now : DateTime) (line : String) (m : RawMessage)
    (h : parse_message_line now line = some m) : SysInv m := by
  unfold parse_message_line at h
  rw [List.findSome?_eq_some_iff] at h
  obtain ⟨l1, a, l2, -, ha, -⟩ := h
  exact classify_sysinv now line a.fst a.snd m ha

/-- The system coercion invariant survives a continuation append (only the
message field changes). -/
theorem sysinv_append_body (m : RawMessage) (x : String) (h : SysInv m) :
    SysInv { m with message := x } := h

/-- The line loop preserves the system coercion invariant: every message it
emits satisfies it provided the open message and the accumulator do. -/
theorem extract_loop_sysinv (now : DateTime) :
    ∀ (lines : List String) (current : Option RawMessage) (acc : List RawMessage),
      (∀ m, current = some m → SysInv m) → (∀ m ∈ acc, SysInv m) →
      ∀ m ∈ extract_loop now lines current acc, SysInv m := by
  intro lines
  induction lines with
  | nil =>
    intro current acc hc ha m hm
    cases current with
    | none => exact ha m hm
    | some c =>
      simp only [extract_loop, List.mem_append, List.mem_singleton] at hm
      rcases hm with hm | hm
      · exact ha m hm
      · exact hm ▸ hc c rfl
  | cons l rest ih =>
    intro current acc hc ha m hm
    rw [extract_loop.eq_def] at hm
    simp only [] at hm
    by_cases hb : (pstrip l == "") = true
    · rw [if_pos hb] at hm
      exact ih current acc hc ha m hm
    · rw [if_neg hb] at hm
      cases hp : parse_message_line now (pstrip l) with
      | some md =>
        rw [hp] at hm
        simp only [] at hm
        cases current with
        | some c =>
          refine ih (some md) (acc ++ [c]) ?_ ?_ m hm
          · intro m2 hm2
            cases hm2
            exact parse_line_sysinv now (pstrip l) md hp
          · intro m2 hm2
            rcases List.mem_append.mp hm2 with h2 | h2
            · exact ha m2 h2
            · rw [List.mem_singleton.mp h2]
              exact hc c rfl
        | none =>
          refine ih (some md) acc ?_ ha m hm
          intro m2 hm2
          cases hm2
          exact parse_line_sysinv now (pstrip l) md hp
      | none =>
        rw [hp] at hm
        simp only [] at hm
        cases current with
        | some c =>
          refine ih _ acc ?_ ha m hm
          intro m2 hm2
          cases hm2
          exact sysinv_append_body c _ (hc c rfl)
        | none => exact ih none acc (fun m2 hm2 => by cases hm2) ha m hm

/-- Membership in the enumeration projects to membership in the list. -/
theorem mem_of_mem_enum {α : Type} {p : Nat × α} {l : List α} (h : p ∈ l.enum) : p.snd ∈ l := by
  obtain ⟨hlt, heq⟩ := List.mem_enum (i := p.fst) (x := p.snd) (by simpa using h)
  rw [heq]
  exact List.getElem_mem hlt

/-- C2: every message of every parse result satisfies the system coercion
invariant. -/
theorem c2_system_coercion (now : DateTime) (isEmoji : Char → Bool) (content : String)
    (m : ProcMessage) (hm : m ∈ extract_messages now isEmoji content)
    (hs : m.is_system = true) : m.sender = "System" := by
  unfold extract_messages process_messages at hm
  rw [List.mem_map] at hm
  obtain ⟨p, hp, rfl⟩ := hm
  have hraw : p.snd ∈ extract_raw now content := mem_of_mem_enum hp
  have hinv : SysInv p.snd := by
    unfold extract_raw at hraw
    exact extract_loop_sysinv now (pySplitLines content) none []
      (fun m2 hm2 => by cases hm2) (fun m2 hm2 => by cases hm2) p.snd hraw
  exact hinv hs

/-- C3: the i-th message of a parse result carries sequence id i. -/
theorem c3_sequence_ids (now : DateTime) (isEmoji : Char → Bool) (content : String)
    (i : Nat) (h : i < (extract_messages now isEmoji content).length) :
    ((extract_messages now isEmoji content).get ⟨i, h⟩).message_id = i := by
  unfold extract_messages process_messages at h ⊢
  rw [List.get_eq_getElem, List.getElem_map, List.getElem_enum]
  rfl

/-- C8: the first message has no inter-message delta; every later message
carries the signed second difference to the message directly before it in
stream order. -/
theorem c8_deltas (now : DateTime) (isEmoji : Char → Bool) (content : String) :
    (∀ h0 : 0 < (extract_messages now isEmoji content).length,
      ((extract_messages now isEmoji content).get ⟨0, h0⟩).response_time_seconds = none) ∧
    (∀ i (h : i < (extract_messages now isEmoji content).length) (hp : 0 < i),
      ((extract_messages now isEmoji content).get ⟨i, h⟩).response_time_seconds =
        some (((extract_messages now isEmoji content).get ⟨i, h⟩).timestamp.totalSeconds -
          ((extract_messages now isEmoji content).get
            ⟨i - 1, by omega⟩).timestamp.totalSeconds)) := by
  constructor
  · intro h0
    unfold extract_messages process_messages at h0 ⊢
    rw [List.get_eq_getElem, List.getElem_map, List.getElem_enum]
    rfl
  · intro i h hp
    unfold extract_messages process_messages at h ⊢
    simp only [List.get_eq_getElem, List.getElem_map, List.getElem_enum]
    have hlen : i < (extract_raw now content).length := by
      simpa using h
    have hi1 : i - 1 < (extract_raw now content).length := by omega
    show (enrich isEmoji (extract_raw now content) i
        ((extract_raw now content)[i])).response_time_seconds = _
    unfold enrich
    simp only [if_pos hp]
    rw [List.get?_eq_getElem?, List.getElem?_eq_getElem hi1]

/-- C4: when no date-format/time-format combination parses the token pair,
_parse_timestamp returns the wall-clock sentinel (and, being a total
function, it never raises past the parser boundary). -/
theorem c4_timestamp_sentinel (now : DateTime) (date_str time_str : String)
    (h : ∀ df ∈ date_formats, ∀ tf ∈ time_formats,
      strptime (date_str ++ " " ++ time_str) (df ++ " " ++ tf) = none) :
    parse_timestamp now date_str time_str = now := by
  unfold parse_timestamp
  have h1 : date_formats.findSome? (fun date_fmt =>
      time_formats.findSome? (fun time_fmt =>
        strptime (date_str ++ " " ++ time_str) (date_fmt ++ " " ++ time_fmt))) = none :=
    List.findSome?_eq_none_iff.mpr (fun df hdf =>
      List.findSome?_eq_none_iff.mpr (fun tf htf => h df hdf tf htf))
  rw [h1]
  have h2 : strptime (date_str ++ " " ++ time_str) "%m/%d/%y %H:%M" = none := by
    have h3 := h "%m/%d/%y" (by simp [date_formats]) "%H:%M" (by simp [time_formats])
    have h4 : ("%m/%d/%y" ++ " " ++ "%H:%M" : String) = "%m/%d/%y %H:%M" := by decide
    rw [h4] at h3
    exact h3
  rw [h2]

/-- Finding the first success over the flat cross product equals the nested
two-level search. -/
theorem findSome?_product {γ : Type} (f : String → String → Option γ) (l2 : List String) :
    ∀ (l1 : List String),
      (l1.flatMap (fun a => l2.map (fun b => (a, b)))).findSome?
          (fun p => f p.fst p.snd) =
        l1.findSome? (fun a => l2.findSome? (fun b => f a b)) := by
  intro l1
  induction l1 with
  | nil => rfl
  | cons a l1 ih =>
    rw [List.flatMap_cons, List.findSome?_append, List.findSome?_map, findSome?_cons]
    rw [ih]
    cases hx : List.findSome? ((fun p => f p.fst p.snd) ∘ fun b => (a, b)) l2 with
    | some v =>
      have hx2 : l2.findSome? (fun b => f a b) = some v := hx
      rw [hx2]
      rfl
    | none =>
      have hx2 : l2.findSome? (fun b => f a b) = none := hx
      rw [hx2]
      rfl

/-- C6: the four-line concrete scenario yields exactly 3 messages, the
second body carries the continuation joined by a line break, and the third
message is coerced to the System sender with the system flag set even
though the line also matched the standard sender-header pattern. -/
theorem c6_scenario (now : DateTime) (isEmoji : Char → Bool) :
    (extract_messages now isEmoji c6Content).length = 3 ∧
    (extract_messages now isEmoji c6Content).map (fun m => m.message) =
      ["Hi there", "Hello!\nThis is a continuation", "Bob joined using an invite link"] ∧
    (extract_messages now isEmoji c6Content).map (fun m => (m.sender, m.is_system)) =
      [("Alice", false), ("Bob", false), ("System", true)] ∧
    (reMatch us_format "1/5/24, 10:05 - Alice: Bob joined using an invite link").isSome =
      true :=
  ⟨rfl, rfl, rfl, rfl⟩

/-- C5: the timestamp normalizer tries date layouts US before EU before ISO
and time layouts 24-hour with seconds, 24-hour, 12-hour with seconds,
12-hour, as the cross product in date-major order, and returns the first
combination that parses; in particular the token 1/5/24, valid under both
the US and the EU layout, is read as the US January 5. -/
theorem c5_priority :
    (date_formats = ["%m/%d/%y", "%m/%d/%Y", "%d/%m/%y", "%d/%m/%Y", "%Y/%m/%d"] ∧
     time_formats = ["%H:%M:%S", "%H:%M", "%I:%M:%S %p", "%I:%M %p"]) ∧
    (∀ (now : DateTime) (d t : String) (dt : DateTime),
      timestamp_combos.findSome?
          (fun c => strptime (d ++ " " ++ t) (c.fst ++ " " ++ c.snd)) = some dt →
      parse_timestamp now d t = dt) ∧
    (strptime ("1/5/24" ++ " " ++ "10:00") ("%m/%d/%y" ++ " " ++ "%H:%M") =
        some ⟨2024, 1, 5, 10, 0, 0⟩ ∧
     strptime ("1/5/24" ++ " " ++ "10:00") ("%d/%m/%y" ++ " " ++ "%H:%M") =
        some ⟨2024, 5, 1, 10, 0, 0⟩ ∧
     ∀ now : DateTime, parse_timestamp now "1/5/24" "10:00" = ⟨2024, 1, 5, 10, 0, 0⟩) := by
  refine ⟨⟨rfl, rfl⟩, ?_, by decide, by decide, fun now => rfl⟩
  intro now d t dt h
  unfold timestamp_combos at h
  rw [findSome?_product (fun df tf => strptime (d ++ " " ++ t) (df ++ " " ++ tf))] at h
  unfold parse_timestamp
  rw [h]

/-- C1 counterexample: on a file no supported encoding decodes, parse_file
returns the normal empty-dict result (ok none) to its caller instead of
letting the DecodeError-kind exception escape: the internal ValueError is
caught by the catch-all except of parse_file. -/
theorem c1_counterexample :
    parse_file epoch (fun _ => false) "chat" "chat.txt" (fun _ => none) = Except.ok none := rfl

/-- C1 (amended): when no supported encoding decodes the content, the
helper _read_file_with_encoding raises a ValueError (the DecodeError
kind), but parse_file catches every exception from its body, logs it and
returns the empty dict, so its caller sees a normal empty result and no
exception. -/
theorem c1_amended_decode_swallowed (now : DateTime) (isEmoji : Char → Bool)
    (fileStem file_path : String) (decode : String → Option String)
    (h : ∀ e ∈ encodings, decode e = none) :
    read_file_with_encoding file_path decode =
      Except.error ("Could not decode file " ++ file_path ++ " with any encoding") ∧
    parse_file now isEmoji fileStem file_path decode = Except.ok none := by
  have hn : encodings.findSome? decode = none := List.findSome?_eq_none_iff.mpr h
  constructor
  · unfold read_file_with_encoding; rw [hn]
  · unfold parse_file read_file_with_encoding; rw [hn]

/-- Witness for the amended C1 at a concrete always-failing decoder. -/
theorem c1_amended_decode_swallowed_witness :
    read_file_with_encoding "chat.txt" (fun _ => none) =
      Except.error ("Could not decode file " ++ "chat.txt" ++ " with any encoding") ∧
    parse_file epoch (fun _ => false) "chat" "chat.txt" (fun _ => none) = Except.ok none :=
  c1_amended_decode_swallowed epoch (fun _ => false) "chat" "chat.txt" (fun _ => none)
    (by intro e _; rfl)

/-- Witness for C2 at a concrete parsed system notice. -/
theorem c2_system_coercion_witness :
    procMsgW ∈ extract_messages epoch (fun _ => false) "1/1/24, 1:01 - A: x left" ∧
    procMsgW.is_system = true ∧ procMsgW.sender = "System" :=
  ⟨by decide, by decide,
   c2_system_coercion epoch (fun _ => false) "1/1/24, 1:01 - A: x left" procMsgW
     (by decide) (by decide)⟩

/-- Witness for C3 at index 0 of a concrete one-message parse. -/
theorem c3_sequence_ids_witness :
    0 < (extract_messages epoch (fun _ => false) "1/1/24, 1:01 - A: hi").length ∧
    ((extract_messages epoch (fun _ => false) "1/1/24, 1:01 - A: hi").get
        ⟨0, by decide⟩).message_id = 0 :=
  ⟨by decide, c3_sequence_ids epoch (fun _ => false) "1/1/24, 1:01 - A: hi" 0 (by decide)⟩

/-- Witness for C4: every combination fails on the nonsense pair and the
sentinel (the now argument) is returned. -/
theorem c4_timestamp_sentinel_witness :
    (∀ df ∈ date_formats, ∀ tf ∈ time_formats,
      strptime ("banana" ++ " " ++ "split") (df ++ " " ++ tf) = none) ∧
    parse_timestamp epoch "banana" "split" = epoch :=
  ⟨by decide, c4_timestamp_sentinel epoch "banana" "split" (by decide)⟩

/-- Witness for C5: the first successful combination on the sample pair is
the US one and _parse_timestamp returns exactly its result. -/
theorem c5_priority_witness :
    timestamp_combos.findSome?
        (fun c => strptime ("1/5/24" ++ " " ++ "10:00") (c.fst ++ " " ++ c.snd)) =
      some ⟨2024, 1, 5, 10, 0, 0⟩ ∧
    parse_timestamp epoch "1/5/24" "10:00" = ⟨2024, 1, 5, 10, 0, 0⟩ :=
  ⟨by decide, c5_priority.2.1 epoch "1/5/24" "10:00" ⟨2024, 1, 5, 10, 0, 0⟩ (by decide)⟩

/-- C7 counterexample: a three-line message whose second line starts with
two spaces loses those spaces in the resulting body, so the body does not
retain the continuation lines characters including their whitespace: the
line loop strips every line before appending it. -/
theorem c7_counterexample :
    (extract_raw epoch "1/5/24, 10:00 - Alice: Hi\n  two spaces lead\nthree").map
        (fun m => m.message) = ["Hi\ntwo spaces lead\nthree"] ∧
    "Hi\ntwo spaces lead\nthree" ≠ "Hi\n  two spaces lead\nthree" :=
  ⟨by decide, by decide⟩

/-- C7 (amended): a message spanning three physical lines whose lines 2
and 3 are non-blank after stripping and match no dialect pattern produces
exactly one record whose body is the header body joined with the stripped
text of lines 2 and 3 by single embedded line breaks; each continuation
line keeps its interior characters in order but loses leading and trailing
whitespace to the strip. -/
theorem c7_amended_continuation (now : DateTime) (l1 l2 l3 : String) (m : RawMessage)
    (h1 : (pstrip l1 == "") = false) (h2 : parse_message_line now (pstrip l1) = some m)
    (h3 : (pstrip l2 == "") = false) (h4 : parse_message_line now (pstrip l2) = none)
    (h5 : (pstrip l3 == "") = false) (h6 : parse_message_line now (pstrip l3) = none) :
    extract_loop now [l1, l2, l3] none [] =
      [{ m with message := m.message ++ "\n" ++ pstrip l2 ++ "\n" ++ pstrip l3 }] := by
  simp only [extract_loop, h1, h2, h3, h4, h5, h6, Bool.false_eq_true, if_false,
    List.nil_append]

/-- Witness for the amended C7 on a concrete three-line message. -/
theorem c7_amended_continuation_witness :
    extract_loop epoch ["1/5/24, 10:00 - Alice: Hi", "  two", "three"] none [] =
      [{ timestamp := ⟨2024, 1, 5, 10, 0, 0⟩, sender := "Alice",
         message := "Hi" ++ "\n" ++ pstrip "  two" ++ "\n" ++ pstrip "three",
         is_system := false }] :=
  c7_amended_continuation epoch "1/5/24, 10:00 - Alice: Hi" "  two" "three"
    ⟨⟨2024, 1, 5, 10, 0, 0⟩, "Alice", "Hi", false⟩
    (by decide) (by decide) (by decide) (by decide) (by decide) (by decide)

/-- Witness for C8 on a concrete two-message parse. -/
theorem c8_deltas_witness :
    ((extract_messages epoch (fun _ => false) c8ContentW).get
        ⟨0, by decide⟩).response_time_seconds = none ∧
    ((extract_messages epoch (fun _ => false) c8ContentW).get
        ⟨1, by decide⟩).response_time_seconds =
      some (((extract_messages epoch (fun _ => false) c8ContentW).get
            ⟨1, by decide⟩).timestamp.totalSeconds -
        ((extract_messages epoch (fun _ => false) c8ContentW).get
            ⟨0, by decide⟩).timestamp.totalSeconds) :=
  ⟨(c8_deltas epoch (fun _ => false) c8ContentW).1 (by decide),
   (c8_deltas epoch (fun _ => false) c8ContentW).2 1 (by decide) (by decide)⟩

/-- C9: every line matched by the eu_format pattern is matched by the
us_format pattern, which is tried earlier, so the line classifier with the
eu_format entry removed is extensionally equal to the classifier as
written. -/
theorem c9_eu_redundant :
    (∀ line : String, (reMatch eu_format line).isSome = true →
        (reMatch us_format line).isSome = true) ∧
    (∀ (now : DateTime) (line : String),
        parse_message_line_noEU now line = parse_message_line now line) :=
  ⟨fun line h => eu_sub_us line h, parse_message_line_noEU_eq⟩

/-- Witness for C9 at a line matched by both unbracketed patterns. -/
theorem c9_eu_redundant_witness :
    (reMatch eu_format "1/1/24, 1:01 - A: hi").isSome = true ∧
    (reMatch us_format "1/1/24, 1:01 - A: hi").isSome = true :=
  ⟨by decide, c9_eu_redundant.1 "1/1/24, 1:01 - A: hi" (by decide)⟩

/-- C10: lines that classify as continuations (which includes every
non-blank line matching no dialect pattern) and occur before any
header-matching line leave the line loop state untouched: the stream of
the file equals the stream of the file without them, so they appear in no
message body and do not change the message count. -/
theorem c10_preheader_discarded (now : DateTime) (pre rest : List String)
    (h : ∀ l ∈ pre, parse_message_line now (pstrip l) = none) :
    extract_loop now (pre ++ rest) none [] = extract_loop now rest none [] := by
  induction pre with
  | nil => rfl
  | cons l pre ih =>
    have hl := h l (List.mem_cons_self l pre)
    rw [List.cons_append, extract_loop.eq_def]
    simp only []
    by_cases hb : (pstrip l == "") = true
    · rw [if_pos hb]
      exact ih (fun x hx => h x (List.mem_cons_of_mem l hx))
    · rw [if_neg hb, hl]
      exact ih (fun x hx => h x (List.mem_cons_of_mem l hx))

/-- Witness for C10 with two junk lines before the first header. -/
theorem c10_preheader_discarded_witness :
    extract_loop epoch (["junk line", "more junk"] ++ ["1/1/24, 1:01 - A: hi"]) none [] =
      extract_loop epoch ["1/1/24, 1:01 - A: hi"] none [] :=
  c10_preheader_discarded epoch ["junk line", "more junk"] ["1/1/24, 1:01 - A: hi"]
    (by decide)
